import Mathlib

/-!
Verification development for the `hash` component of the repository
`haleyrc/lib`.

The repository exposes two thin surfaces over the external bcrypt
primitive (`golang.org/x/crypto/bcrypt`):

* `src/hash/hash.go`: a value type `Hash` produced by `New` and compared
  with the method `Hash.Compare`;
* a second package (in `src/unnamed/part_000`): free functions
  `Generate` and `Check`.

Go strings and byte slices are modelled as lists of natural numbers, one
per byte.  The external bcrypt primitive is not part of the repository;
it is modelled below from the behavioural contract stated in the spec
(a salted, self-describing digest carrying algorithm tag, cost and salt;
deterministic recomputation; a constant-time comparison loop; the
documented error taxonomy of the Go library).  Randomness (the salt the
primitive draws internally) is made explicit: every generation function
takes the drawn salt as an argument.
-/

deriving instance DecidableEq for Except

namespace HashLib

/-- Byte strings: Go strings and byte slices, one natural number per byte. -/
abbrev Bytes := List Nat

namespace bcrypt

/-- Minimum cost accepted by the bcrypt primitive. -/
def MinCost : Nat := 4

/-- Maximum cost accepted by the bcrypt primitive. -/
def MaxCost : Nat := 31

/-- Default cost; both repository wrappers call the primitive with it. -/
def DefaultCost : Nat := 10

/-- Errors of the external bcrypt primitive: the mismatch error returned
when a well-formed digest does not match the supplied password, and the
parse errors returned for malformed digests or an out-of-range cost. -/
inductive Err where
  | mismatchedHashAndPassword
  | hashTooShort
  | invalidHashPrefix (b : Nat)
  | invalidCost (c : Nat)
  deriving DecidableEq

/-- Rendered message of each primitive error.  The mismatch text is the
documented constant of the Go library; note that it does not contain the
word "mismatch". -/
def Err.message : Err → String
  | .mismatchedHashAndPassword =>
      "crypto/bcrypt: hashedPassword is not the hash of the given password"
  | .hashTooShort =>
      "crypto/bcrypt: hashedSecret too short to be a bcrypted password"
  | .invalidHashPrefix _ =>
      "crypto/bcrypt: bcrypt hashes must start with the algorithm tag"
  | .invalidCost c =>
      "crypto/bcrypt: cost " ++ toString c ++ " is outside allowed range (4,31)"

/-- Accumulator loop of the constant-time comparison (the loop of
`crypto/subtle.ConstantTimeCompare`): it walks both lists to the end,
or-ing the xor of each byte pair into `v`, with no early exit. -/
def ctOr : Bytes → Bytes → Nat → Nat
  | a :: x, b :: y, v => ctOr x y (v ||| (a ^^^ b))
  | _, _, v => v

/-- Constant-time equality of byte strings, modelling
`crypto/subtle.ConstantTimeCompare`: unequal lengths fail at once, equal
lengths run the full accumulator loop and test the accumulated word. -/
def ConstantTimeCompare (x y : Bytes) : Bool :=
  if x.length ≠ y.length then false
  else ctOr x y 0 == 0

/-- Instrumented accumulator loop: same recursion as `ctOr`, returning
also the number of loop iterations performed, as a cost model for the
timing behaviour of the comparison. -/
def ctOrSteps : Bytes → Bytes → Nat → Nat × Nat
  | a :: x, b :: y, v =>
      let r := ctOrSteps x y (v ||| (a ^^^ b))
      (r.1, r.2 + 1)
  | _, _, v => (v, 0)

/-- Modelled from the spec: the raw one-way hash output of the bcrypt
primitive, a deterministic function of password, salt and cost.  The
spec treats the algorithm itself as an implementation detail satisfying
the contract (deterministic recomputation, distinct secrets giving
distinct outputs), so the model realises it as an injective encoding of
its three inputs. -/
def bcryptCore (password salt : Bytes) (cost : Nat) : Bytes :=
  password.length :: salt.length :: cost :: (password ++ salt)

/-- Modelled from the spec: the self-describing digest encoding, holding
the algorithm tag (byte 36), the cost factor, the salt and the raw hash
output in one byte sequence. -/
def encodeDigest (cost : Nat) (salt hashOut : Bytes) : Bytes :=
  36 :: cost :: salt.length :: (salt ++ hashOut)

/-- Modelled from the spec: parsing a stored digest back into cost, salt
and raw hash output, with the parse-error taxonomy of the primitive: a
too-short digest, a wrong algorithm tag, or an out-of-range cost. -/
def decodeDigest : Bytes → Except Err (Nat × Bytes × Bytes)
  | [] => .error .hashTooShort
  | b :: rest =>
    if b ≠ 36 then .error (.invalidHashPrefix b)
    else
      match rest with
      | cost :: n :: rest2 =>
        if cost < MinCost then .error (.invalidCost cost)
        else if MaxCost < cost then .error (.invalidCost cost)
        else if rest2.length < n then .error .hashTooShort
        else .ok (cost, rest2.take n, rest2.drop n)
      | _ => .error .hashTooShort

/-- Model of `bcrypt.GenerateFromPassword`: a cost above `MaxCost` is an
`invalidCost` error; a cost below `MinCost` is silently replaced by the
default cost; otherwise the salted digest is produced.  The salt the Go
function draws from the system random source is passed explicitly. -/
def GenerateFromPassword (password : Bytes) (cost : Nat) (salt : Bytes) :
    Except Err Bytes :=
  if MaxCost < cost then .error (.invalidCost cost)
  else
    let c := if cost < MinCost then DefaultCost else cost
    .ok (encodeDigest c salt (bcryptCore password salt c))

/-- Model of `bcrypt.CompareHashAndPassword`: parse the stored digest
(propagating its parse errors), recompute the raw hash of the supplied
password under the embedded salt and cost, and compare in constant time;
a well-formed digest that does not match yields the mismatch error. -/
def CompareHashAndPassword (hashedPassword password : Bytes) : Option Err :=
  match decodeDigest hashedPassword with
  | .error e => some e
  | .ok (cost, salt, stored) =>
      if ConstantTimeCompare (bcryptCore password salt cost) stored then none
      else some .mismatchedHashAndPassword

end bcrypt

/-- Hash represents a one-way hash of a string value (`src/hash/hash.go`). -/
structure Hash where
  value : Bytes
  deriving DecidableEq

/-- Outcome of a Go function that can panic: either the returned value or
an unrecoverable panic carrying the primitive error. -/
inductive GoResult (α : Type) where
  | ok (a : α)
  | panicked (e : bcrypt.Err)
  deriving DecidableEq

/-- A recoverable Go error value as built by `fmt.Errorf` with a wrap
verb: the wrapped primitive error (recoverable by `errors.Is` and
friends) together with the rendered message. -/
structure GoError where
  wrapped : bcrypt.Err
  message : String
  deriving DecidableEq

/-- New returns a one-way hash of s (`src/hash/hash.go`): it calls the
primitive at the default cost and panics if the primitive reports an
error.  The salt drawn inside the primitive is passed explicitly. -/
def New (s : Bytes) (salt : Bytes) : GoResult Hash :=
  match bcrypt.GenerateFromPassword s bcrypt.DefaultCost salt with
  | .ok hashBytes => .ok ⟨hashBytes⟩
  | .error e => .panicked e

/-- Compare compares o with the hashed value in h and returns an error if
the values do not match (`src/hash/hash.go`); every primitive error is
wrapped with the message prefix "hash: compare: hash mismatch: ". -/
def Hash.Compare (h : Hash) (o : Bytes) : Option GoError :=
  match bcrypt.CompareHashAndPassword h.value o with
  | some e => some ⟨e, "hash: compare: hash mismatch: " ++ e.message⟩
  | none => none

/-- Check returns an error if the provided hash is not the hash of the
provided guess, or nil otherwise (`src/unnamed/part_000`); every
primitive error is wrapped with the message prefix "check failed: ". -/
def Check (guess hash : Bytes) : Option GoError :=
  match bcrypt.CompareHashAndPassword hash guess with
  | some e => some ⟨e, "check failed: " ++ e.message⟩
  | none => none

/-- Generate returns a hashed version of the provided string and panics
if the primitive reports an error (`src/unnamed/part_000`). -/
def Generate (s : Bytes) (salt : Bytes) : GoResult Bytes :=
  match bcrypt.GenerateFromPassword s bcrypt.DefaultCost salt with
  | .ok hashBytes => .ok hashBytes
  | .error e => .panicked e

/-- Modelled from the spec: section 6 allows generation to take an
optional cost parameter; this variant has the same error policy as the
two wrappers (panic whenever the primitive reports an error) and makes
that policy observable, since the primitive rejects costs above the
maximum. -/
def GenerateWithCost (s : Bytes) (cost : Nat) (salt : Bytes) : GoResult Bytes :=
  match bcrypt.GenerateFromPassword s cost salt with
  | .ok hashBytes => .ok hashBytes
  | .error e => .panicked e

/-- Failure kinds of the verification operation as named by the spec. -/
inductive FailureKind where
  | mismatch
  | invalidDigest
  deriving DecidableEq

/-- Classification a caller can compute from a returned error value by
inspecting the wrapped primitive error (as Go callers do with
`errors.Is`): the mismatch error is a Mismatch, every parse error of the
stored digest is an InvalidDigest. -/
def classify (e : GoError) : FailureKind :=
  match e.wrapped with
  | .mismatchedHashAndPassword => .mismatch
  | _ => .invalidDigest

/-- Matching of a needle at the head of a haystack, on characters. -/
def leadingMatch : List Char → List Char → Bool
  | [], _ => true
  | _ :: _, [] => false
  | a :: x, b :: y => a == b && leadingMatch x y

/-- Substring search on characters, needle first. -/
def containsSub (needle : List Char) : List Char → Bool
  | [] => leadingMatch needle []
  | c :: t => leadingMatch needle (c :: t) || containsSub needle t

/-- Substring containment on strings, haystack first, modelling
`strings.Contains`. -/
def strContains (hay sub : String) : Bool :=
  containsSub sub.data hay.data

/-- Byte string of a Go string literal. -/
def strBytes (s : String) : Bytes :=
  s.data.map Char.toNat

/-- Concrete salt used by the concrete scenarios. -/
def salt0 : Bytes := [1, 2, 3, 4]

/-- Second concrete salt, distinct from `salt0`. -/
def salt1 : Bytes := [9, 9, 9, 9]

/-- Concrete digest of the secret "hello" under `salt0` at default cost. -/
def demoDigest : Bytes :=
  bcrypt.encodeDigest bcrypt.DefaultCost salt0
    (bcrypt.bcryptCore (strBytes "hello") salt0 bcrypt.DefaultCost)

/-! Basic lemmas about the comparison loop and the digest encoding. -/

/-- Or of two naturals is zero exactly when both are zero. -/
lemma nat_or_eq_zero (x y : Nat) : x ||| y = 0 ↔ x = 0 ∧ y = 0 := by
  constructor
  · intro h
    have hx : x = 0 := Nat.eq_of_testBit_eq fun i => by
      have hb := congrArg (fun z => z.testBit i) h
      simp [Nat.testBit_or] at hb
      simp [hb.1]
    have hy : y = 0 := Nat.eq_of_testBit_eq fun i => by
      have hb := congrArg (fun z => z.testBit i) h
      simp [Nat.testBit_or] at hb
      simp [hb.2]
    exact ⟨hx, hy⟩
  · rintro ⟨rfl, rfl⟩
    rfl

/-- The accumulator loop on two equal lists returns the accumulator. -/
lemma ctOr_self (x : Bytes) (v : Nat) : bcrypt.ctOr x x v = v := by
  induction x generalizing v with
  | nil => rfl
  | cons a t ih =>
      simp [bcrypt.ctOr, Nat.xor_self, Nat.or_zero, ih]

/-- On lists of equal length, the accumulator loop returns zero exactly
when the accumulator was zero and the lists are equal. -/
lemma ctOr_eq_zero (x : Bytes) : ∀ (y : Bytes) (v : Nat),
    x.length = y.length → (bcrypt.ctOr x y v = 0 ↔ v = 0 ∧ x = y) := by
  induction x with
  | nil =>
      intro y v hl
      cases y with
      | nil => simp [bcrypt.ctOr]
      | cons b t => simp at hl
  | cons a t ih =>
      intro y v hl
      cases y with
      | nil => simp at hl
      | cons b u =>
          have hl2 : t.length = u.length := by simpa using hl
          rw [bcrypt.ctOr, ih u (v ||| (a ^^^ b)) hl2, nat_or_eq_zero,
            Nat.xor_eq_zero]
          constructor
          · rintro ⟨⟨hv, hab⟩, ht⟩
            exact ⟨hv, by rw [hab, ht]⟩
          · rintro ⟨hv, ht⟩
            cases ht
            exact ⟨⟨hv, rfl⟩, rfl⟩

/-- Constant-time comparison decides equality of byte strings. -/
lemma ConstantTimeCompare_eq_true (x y : Bytes) :
    bcrypt.ConstantTimeCompare x y = true ↔ x = y := by
  unfold bcrypt.ConstantTimeCompare
  by_cases hl : x.length = y.length
  · simp only [hl, ne_eq, not_true_eq_false, if_false, beq_iff_eq]
    rw [ctOr_eq_zero x y 0 hl]
    constructor
    · rintro ⟨-, h⟩; exact h
    · rintro rfl; exact ⟨rfl, rfl⟩
  · rw [if_pos (show x.length ≠ y.length from hl)]
    simp only [Bool.false_eq_true, false_iff]
    intro h
    exact hl (by rw [h])

/-- The raw hash is an injective function of password, salt and cost. -/
lemma bcryptCore_inj {p s p2 s2 : Bytes} {c c2 : Nat}
    (h : bcrypt.bcryptCore p s c = bcrypt.bcryptCore p2 s2 c2) :
    p = p2 ∧ s = s2 ∧ c = c2 := by
  unfold bcrypt.bcryptCore at h
  injection h with h1 h
  injection h with h2 h
  injection h with h3 happ
  obtain ⟨hpp, hss⟩ := List.append_inj happ h1
  exact ⟨hpp, hss, h3⟩

/-- Decoding inverts encoding for an in-range cost. -/
lemma decode_encode (c : Nat) (s hashOut : Bytes)
    (h1 : bcrypt.MinCost ≤ c) (h2 : c ≤ bcrypt.MaxCost) :
    bcrypt.decodeDigest (bcrypt.encodeDigest c s hashOut) =
      .ok (c, s, hashOut) := by
  unfold bcrypt.encodeDigest bcrypt.decodeDigest
  have hc1 : ¬ c < bcrypt.MinCost := Nat.not_lt.mpr h1
  have hc2 : ¬ bcrypt.MaxCost < c := Nat.not_lt.mpr h2
  have hlen : ¬ (s ++ hashOut).length < s.length := by
    rw [List.length_append]
    omega
  simp [hc1, hc2, hlen, List.take_left, List.drop_left]

/-- At the default cost the primitive always succeeds, with the digest
encoding the supplied salt and the recomputed raw hash. -/
lemma gfp_default (p salt : Bytes) :
    bcrypt.GenerateFromPassword p bcrypt.DefaultCost salt =
      .ok (bcrypt.encodeDigest bcrypt.DefaultCost salt
        (bcrypt.bcryptCore p salt bcrypt.DefaultCost)) := rfl

/-- Verification of the generating secret against a freshly generated
digest succeeds. -/
lemma chp_roundtrip (p salt : Bytes) :
    bcrypt.CompareHashAndPassword
      (bcrypt.encodeDigest bcrypt.DefaultCost salt
        (bcrypt.bcryptCore p salt bcrypt.DefaultCost)) p = none := by
  unfold bcrypt.CompareHashAndPassword
  rw [decode_encode _ _ _ (by decide) (by decide)]
  have : bcrypt.ConstantTimeCompare
      (bcrypt.bcryptCore p salt bcrypt.DefaultCost)
      (bcrypt.bcryptCore p salt bcrypt.DefaultCost) = true :=
    (ConstantTimeCompare_eq_true _ _).mpr rfl
  simp [this]

/-- Verification of a different secret against a freshly generated digest
yields the mismatch error. -/
lemma chp_mismatch (p q salt : Bytes) (hne : q ≠ p) :
    bcrypt.CompareHashAndPassword
      (bcrypt.encodeDigest bcrypt.DefaultCost salt
        (bcrypt.bcryptCore p salt bcrypt.DefaultCost)) q =
      some .mismatchedHashAndPassword := by
  unfold bcrypt.CompareHashAndPassword
  rw [decode_encode _ _ _ (by decide) (by decide)]
  have hfalse : bcrypt.ConstantTimeCompare
      (bcrypt.bcryptCore q salt bcrypt.DefaultCost)
      (bcrypt.bcryptCore p salt bcrypt.DefaultCost) = false := by
    rw [Bool.eq_false_iff]
    intro htrue
    exact hne (bcryptCore_inj ((ConstantTimeCompare_eq_true _ _).mp htrue)).1
  simp [hfalse]

/-- Unfolding of `Check` through `Option.map`. -/
lemma Check_eq (guess hash : Bytes) :
    Check guess hash = (bcrypt.CompareHashAndPassword hash guess).map
      (fun e => ⟨e, "check failed: " ++ e.message⟩) := by
  cases h : bcrypt.CompareHashAndPassword hash guess <;> simp [Check, h]

/-- Unfolding of `Hash.Compare` on an explicit digest through
`Option.map`. -/
lemma Compare_mk_eq (d o : Bytes) :
    Hash.Compare ⟨d⟩ o = (bcrypt.CompareHashAndPassword d o).map
      (fun e => ⟨e, "hash: compare: hash mismatch: " ++ e.message⟩) := by
  cases h : bcrypt.CompareHashAndPassword d o <;> simp [Hash.Compare, h]

/-- Parsing a digest never yields the mismatch error. -/
lemma decode_no_mismatch (d : Bytes) :
    bcrypt.decodeDigest d ≠ .error .mismatchedHashAndPassword := by
  intro h
  cases d with
  | nil => simp [bcrypt.decodeDigest] at h
  | cons b rest =>
      simp only [bcrypt.decodeDigest] at h
      by_cases hb : b ≠ 36
      · rw [if_pos hb] at h
        simp at h
      · rw [if_neg hb] at h
        cases rest with
        | nil => simp at h
        | cons cost rest1 =>
            cases rest1 with
            | nil => simp at h
            | cons n rest2 =>
                simp only [] at h
                split at h
                · simp at h
                · split at h
                  · simp at h
                  · split at h
                    · simp at h
                    · simp at h

/-- Every error of the comparison primitive is either the mismatch error
or the parse error of the stored digest. -/
lemma chp_some (d s : Bytes) (pe : bcrypt.Err)
    (h : bcrypt.CompareHashAndPassword d s = some pe) :
    pe = .mismatchedHashAndPassword ∨ bcrypt.decodeDigest d = .error pe := by
  unfold bcrypt.CompareHashAndPassword at h
  cases hd : bcrypt.decodeDigest d with
  | error pe2 =>
      rw [hd] at h
      injection h with h
      right
      exact congrArg Except.error h
  | ok t =>
      obtain ⟨c, sa, st⟩ := t
      rw [hd] at h
      by_cases hb : bcrypt.ConstantTimeCompare (bcrypt.bcryptCore s sa c) st = true
      · simp [hb] at h
      · rw [Bool.not_eq_true] at hb
        simp [hb] at h
        left
        exact h.symm

/-! Claim theorems. -/

/-- C1: Round-trip — for every non-empty secret s and any drawn salt,
generation succeeds and verifying s against the digest produced from s
succeeds on both surfaces: Check(s, Generate(s)) returns nil and
Hash.Compare(s) returns nil on New(s). -/
theorem roundTrip_ok (s salt : Bytes) (_hs : s ≠ []) :
    ∃ d, Generate s salt = .ok d ∧ Check s d = none ∧
      New s salt = .ok ⟨d⟩ ∧ Hash.Compare ⟨d⟩ s = none := by
  refine ⟨bcrypt.encodeDigest bcrypt.DefaultCost salt
    (bcrypt.bcryptCore s salt bcrypt.DefaultCost), ?_, ?_, ?_, ?_⟩
  · unfold Generate; rw [gfp_default]
  · rw [Check_eq, chp_roundtrip]; rfl
  · unfold New; rw [gfp_default]
  · rw [Compare_mk_eq, chp_roundtrip]; rfl

/-- C1 witness: the concrete round trip at the secret "hello". -/
theorem roundTrip_ok_witness :
    ∃ d, Generate (strBytes "hello") salt0 = .ok d ∧
      Check (strBytes "hello") d = none ∧
      New (strBytes "hello") salt0 = .ok ⟨d⟩ ∧
      Hash.Compare ⟨d⟩ (strBytes "hello") = none :=
  roundTrip_ok (strBytes "hello") salt0 (by decide)

/-- C5: Negative property — for distinct secrets s1 and s2, verifying s2
against a digest generated from s1 returns the Mismatch error on both
surfaces (Check and Hash.Compare return a non-nil error wrapping the
mismatch error of the primitive). -/
theorem distinct_secrets_mismatch (s1 s2 salt d : Bytes) (hne : s2 ≠ s1)
    (hd : Generate s1 salt = .ok d) :
    (∃ e, Check s2 d = some e ∧ e.wrapped = .mismatchedHashAndPassword) ∧
    (∃ e, Hash.Compare ⟨d⟩ s2 = some e ∧
      e.wrapped = .mismatchedHashAndPassword) := by
  have hdval : d = bcrypt.encodeDigest bcrypt.DefaultCost salt
      (bcrypt.bcryptCore s1 salt bcrypt.DefaultCost) := by
    unfold Generate at hd
    rw [gfp_default] at hd
    injection hd with hd
    exact hd.symm
  subst hdval
  constructor
  · refine ⟨⟨.mismatchedHashAndPassword,
      "check failed: " ++ bcrypt.Err.message .mismatchedHashAndPassword⟩,
      ?_, rfl⟩
    rw [Check_eq, chp_mismatch s1 s2 salt hne]; rfl
  · refine ⟨⟨.mismatchedHashAndPassword,
      "hash: compare: hash mismatch: " ++
        bcrypt.Err.message .mismatchedHashAndPassword⟩, ?_, rfl⟩
    rw [Compare_mk_eq, chp_mismatch s1 s2 salt hne]; rfl

/-- C5 witness: the concrete mismatch at "goodbye" against the digest of
"hello". -/
theorem distinct_secrets_mismatch_witness :
    (∃ e, Check (strBytes "goodbye") demoDigest = some e ∧
      e.wrapped = .mismatchedHashAndPassword) ∧
    (∃ e, Hash.Compare ⟨demoDigest⟩ (strBytes "goodbye") = some e ∧
      e.wrapped = .mismatchedHashAndPassword) :=
  distinct_secrets_mismatch (strBytes "hello") (strBytes "goodbye") salt0
    demoDigest (by decide) (by decide)

/-- C6: Two-run property — two generation runs on the same secret with
distinct drawn salts produce different digest byte sequences, yet the
secret verifies against each of the two digests. -/
theorem generate_salt_nondeterminism (s t1 t2 : Bytes) (hne : t1 ≠ t2) :
    ∃ d1 d2, Generate s t1 = .ok d1 ∧ Generate s t2 = .ok d2 ∧ d1 ≠ d2 ∧
      Check s d1 = none ∧ Check s d2 = none := by
  refine ⟨bcrypt.encodeDigest bcrypt.DefaultCost t1
      (bcrypt.bcryptCore s t1 bcrypt.DefaultCost),
    bcrypt.encodeDigest bcrypt.DefaultCost t2
      (bcrypt.bcryptCore s t2 bcrypt.DefaultCost), ?_, ?_, ?_, ?_, ?_⟩
  · unfold Generate; rw [gfp_default]
  · unfold Generate; rw [gfp_default]
  · intro h
    unfold bcrypt.encodeDigest at h
    injection h with h1 h
    injection h with h2 h
    injection h with h3 happ
    exact hne (List.append_inj happ h3).1
  · rw [Check_eq, chp_roundtrip]; rfl
  · rw [Check_eq, chp_roundtrip]; rfl

/-- C6 witness: two concrete runs on "hello" with the two concrete
salts. -/
theorem generate_salt_nondeterminism_witness :
    ∃ d1 d2, Generate (strBytes "hello") salt0 = .ok d1 ∧
      Generate (strBytes "hello") salt1 = .ok d2 ∧ d1 ≠ d2 ∧
      Check (strBytes "hello") d1 = none ∧
      Check (strBytes "hello") d2 = none :=
  generate_salt_nondeterminism (strBytes "hello") salt0 salt1 (by decide)

/-- C7: Contract equivalence of the two surfaces — for every secret s and
digest d, Hash.Compare on the wrapping type succeeds exactly when the
free function Check succeeds, and when both fail they wrap the same
primitive error (they differ only in the rendered message). -/
theorem compare_check_equiv (s d : Bytes) :
    (Hash.Compare ⟨d⟩ s = none ↔ Check s d = none) ∧
    (∀ e, Hash.Compare ⟨d⟩ s = some e →
      ∃ e2, Check s d = some e2 ∧ e2.wrapped = e.wrapped) ∧
    (∀ e, Check s d = some e →
      ∃ e2, Hash.Compare ⟨d⟩ s = some e2 ∧ e2.wrapped = e.wrapped) := by
  rw [Compare_mk_eq, Check_eq]
  cases h : bcrypt.CompareHashAndPassword d s with
  | none => simp
  | some e =>
      refine ⟨by simp, ?_, ?_⟩
      · intro e1 he1
        simp only [Option.map_some'] at he1 ⊢
        injection he1 with he1
        exact ⟨_, rfl, by rw [← he1]⟩
      · intro e1 he1
        simp only [Option.map_some'] at he1 ⊢
        injection he1 with he1
        exact ⟨_, rfl, by rw [← he1]⟩

/-- C7 witness: equivalence instantiated at "goodbye" and the concrete
digest of "hello"; both surfaces fail and wrap the mismatch error. -/
theorem compare_check_equiv_witness :
    ∃ e2, Check (strBytes "goodbye") demoDigest = some e2 ∧
      e2.wrapped = bcrypt.Err.mismatchedHashAndPassword :=
  (compare_check_equiv (strBytes "goodbye") demoDigest).2.1
    ⟨.mismatchedHashAndPassword,
      "hash: compare: hash mismatch: " ++
        bcrypt.Err.message .mismatchedHashAndPassword⟩ (by decide)

/-- C10: The empty secret is accepted at the public interface — New and
Generate on the empty string return a digest without panicking and the
empty string verifies against it; no emptiness check exists in the
code. -/
theorem empty_secret_accepted (salt : Bytes) :
    ∃ d, New [] salt = .ok ⟨d⟩ ∧ Generate [] salt = .ok d ∧
      Check [] d = none ∧ Hash.Compare ⟨d⟩ [] = none := by
  refine ⟨bcrypt.encodeDigest bcrypt.DefaultCost salt
    (bcrypt.bcryptCore [] salt bcrypt.DefaultCost), ?_, ?_, ?_, ?_⟩
  · unfold New; rw [gfp_default]
  · unfold Generate; rw [gfp_default]
  · rw [Check_eq, chp_roundtrip]; rfl
  · rw [Compare_mk_eq, chp_roundtrip]; rfl

/-- C2: Failure kinds are distinguishable from the returned value — when
the stored digest is malformed, both surfaces return an error a caller
classifies (from the wrapped primitive error) as InvalidDigest; when the
digest is well-formed but the secret is wrong, both return an error
classified as Mismatch. -/
theorem verify_failure_distinguishable (s d : Bytes) :
    (∀ pe, bcrypt.decodeDigest d = .error pe →
      (∃ e, Check s d = some e ∧ classify e = .invalidDigest) ∧
      (∃ e, Hash.Compare ⟨d⟩ s = some e ∧ classify e = .invalidDigest)) ∧
    (∀ cost salt stored,
      bcrypt.decodeDigest d = .ok (cost, salt, stored) →
      bcrypt.ConstantTimeCompare (bcrypt.bcryptCore s salt cost) stored
        = false →
      (∃ e, Check s d = some e ∧ classify e = .mismatch) ∧
      (∃ e, Hash.Compare ⟨d⟩ s = some e ∧ classify e = .mismatch)) := by
  constructor
  · intro pe hpe
    have hchp : bcrypt.CompareHashAndPassword d s = some pe := by
      unfold bcrypt.CompareHashAndPassword
      rw [hpe]
    have hpe2 : pe ≠ bcrypt.Err.mismatchedHashAndPassword := by
      intro hh
      exact decode_no_mismatch d (hh ▸ hpe)
    have hcls : ∀ m, classify ⟨pe, m⟩ = .invalidDigest := by
      intro m
      cases pe with
      | mismatchedHashAndPassword => exact absurd rfl hpe2
      | hashTooShort => rfl
      | invalidHashPrefix b => rfl
      | invalidCost c => rfl
    constructor
    · refine ⟨⟨pe, "check failed: " ++ pe.message⟩, ?_, hcls _⟩
      rw [Check_eq, hchp]; rfl
    · refine ⟨⟨pe, "hash: compare: hash mismatch: " ++ pe.message⟩,
        ?_, hcls _⟩
      rw [Compare_mk_eq, hchp]; rfl
  · intro cost salt stored hok hfalse
    have hchp : bcrypt.CompareHashAndPassword d s =
        some .mismatchedHashAndPassword := by
      unfold bcrypt.CompareHashAndPassword
      rw [hok]
      simp [hfalse]
    constructor
    · refine ⟨⟨.mismatchedHashAndPassword, "check failed: " ++
        bcrypt.Err.message .mismatchedHashAndPassword⟩, ?_, rfl⟩
      rw [Check_eq, hchp]; rfl
    · refine ⟨⟨.mismatchedHashAndPassword,
        "hash: compare: hash mismatch: " ++
          bcrypt.Err.message .mismatchedHashAndPassword⟩, ?_, rfl⟩
      rw [Compare_mk_eq, hchp]; rfl

/-- C2 witness: a concrete malformed digest (wrong tag byte) gives
InvalidDigest on both surfaces, and the concrete well-formed digest of
"hello" with the wrong secret "goodbye" gives Mismatch on both. -/
theorem verify_failure_distinguishable_witness :
    ((∃ e, Check (strBytes "hello") [0] = some e ∧
        classify e = .invalidDigest) ∧
      (∃ e, Hash.Compare ⟨[0]⟩ (strBytes "hello") = some e ∧
        classify e = .invalidDigest)) ∧
    ((∃ e, Check (strBytes "goodbye") demoDigest = some e ∧
        classify e = .mismatch) ∧
      (∃ e, Hash.Compare ⟨demoDigest⟩ (strBytes "goodbye") = some e ∧
        classify e = .mismatch)) :=
  ⟨(verify_failure_distinguishable (strBytes "hello") [0]).1
      (.invalidHashPrefix 0) (by decide),
    (verify_failure_distinguishable (strBytes "goodbye") demoDigest).2
      10 salt0 (bcrypt.bcryptCore (strBytes "hello") salt0 10)
      (by decide) (by decide)⟩

/-- C3: Generation failure policy — whenever the underlying primitive
reports an error, Generate and New end in a panic carrying that error
instead of returning an error value (the cost-taking variant makes the
panic branch observable); when the primitive succeeds they return the
digest, and at the default cost they always do: the `GoResult` type has
no recoverable-error channel at all. -/
theorem generate_failure_policy (s salt : Bytes) :
    (∀ d, bcrypt.GenerateFromPassword s bcrypt.DefaultCost salt = .ok d →
      Generate s salt = .ok d ∧ New s salt = .ok ⟨d⟩) ∧
    (∀ e, bcrypt.GenerateFromPassword s bcrypt.DefaultCost salt
        = .error e →
      Generate s salt = .panicked e ∧ New s salt = .panicked e) ∧
    (∀ cost e, bcrypt.GenerateFromPassword s cost salt = .error e →
      GenerateWithCost s cost salt = .panicked e) ∧
    (∃ d, Generate s salt = .ok d ∧ New s salt = .ok ⟨d⟩) := by
  refine ⟨?_, ?_, ?_, ?_⟩
  · intro d hd
    unfold Generate New
    rw [hd]
    exact ⟨rfl, rfl⟩
  · intro e he
    unfold Generate New
    rw [he]
    exact ⟨rfl, rfl⟩
  · intro cost e he
    unfold GenerateWithCost
    rw [he]
  · refine ⟨bcrypt.encodeDigest bcrypt.DefaultCost salt
      (bcrypt.bcryptCore s salt bcrypt.DefaultCost), ?_, ?_⟩
    · unfold Generate; rw [gfp_default]
    · unfold New; rw [gfp_default]

/-- C3 witness: a cost the primitive rejects makes generation panic with
the primitive error, and the concrete default-cost run returns the
digest. -/
theorem generate_failure_policy_witness :
    GenerateWithCost (strBytes "hello") 40 salt0 =
      .panicked (bcrypt.Err.invalidCost 40) ∧
    (∃ d, Generate (strBytes "hello") salt0 = .ok d ∧
      New (strBytes "hello") salt0 = .ok ⟨d⟩) :=
  ⟨(generate_failure_policy (strBytes "hello") salt0).2.2.1 40
      (.invalidCost 40) (by decide),
    (generate_failure_policy (strBytes "hello") salt0).2.2.2⟩

/-- C8: Verification never panics — for every secret and every digest,
including malformed digests, Check and Hash.Compare return normally with
either nil or an error value, and that error always wraps either the
mismatch error or the parse error of the supplied digest: no input
reaches a panic on the verification path. -/
theorem verify_never_panics (s d : Bytes) :
    (Check s d = none ∨ ∃ e, Check s d = some e) ∧
    (∀ e, Check s d = some e →
      e.wrapped = bcrypt.Err.mismatchedHashAndPassword ∨
      bcrypt.decodeDigest d = .error e.wrapped) ∧
    (Hash.Compare ⟨d⟩ s = none ∨ ∃ e, Hash.Compare ⟨d⟩ s = some e) ∧
    (∀ e, Hash.Compare ⟨d⟩ s = some e →
      e.wrapped = bcrypt.Err.mismatchedHashAndPassword ∨
      bcrypt.decodeDigest d = .error e.wrapped) := by
  refine ⟨?_, ?_, ?_, ?_⟩
  · cases h : Check s d with
    | none => exact .inl rfl
    | some e => exact .inr ⟨e, rfl⟩
  · intro e he
    rw [Check_eq] at he
    cases hc : bcrypt.CompareHashAndPassword d s with
    | none => rw [hc] at he; simp at he
    | some pe =>
        rw [hc] at he
        simp only [Option.map_some'] at he
        injection he with he
        rw [← he]
        exact chp_some d s pe hc
  · cases h : Hash.Compare ⟨d⟩ s with
    | none => exact .inl rfl
    | some e => exact .inr ⟨e, rfl⟩
  · intro e he
    rw [Compare_mk_eq] at he
    cases hc : bcrypt.CompareHashAndPassword d s with
    | none => rw [hc] at he; simp at he
    | some pe =>
        rw [hc] at he
        simp only [Option.map_some'] at he
        injection he with he
        rw [← he]
        exact chp_some d s pe hc

/-- C8 witness: on a concrete malformed digest the Check error wraps
exactly the parse error of that digest. -/
theorem verify_never_panics_witness :
    (⟨bcrypt.Err.invalidHashPrefix 0,
        "check failed: " ++
          bcrypt.Err.message (.invalidHashPrefix 0)⟩ : GoError).wrapped
      = bcrypt.Err.mismatchedHashAndPassword ∨
    bcrypt.decodeDigest [0] =
      .error (⟨bcrypt.Err.invalidHashPrefix 0,
        "check failed: " ++
          bcrypt.Err.message (.invalidHashPrefix 0)⟩ : GoError).wrapped :=
  (verify_never_panics (strBytes "hello") [0]).2.1
    ⟨.invalidHashPrefix 0,
      "check failed: " ++ bcrypt.Err.message (.invalidHashPrefix 0)⟩
    (by decide)

/-- Iteration count of the instrumented comparison loop is the length of
the shorter input. -/
lemma ctOrSteps_len (x : Bytes) : ∀ (y : Bytes) (v : Nat),
    (bcrypt.ctOrSteps x y v).2 = min x.length y.length := by
  induction x with
  | nil =>
      intro y v
      cases y <;> simp [bcrypt.ctOrSteps]
  | cons a t ih =>
      intro y v
      cases y with
      | nil => simp [bcrypt.ctOrSteps]
      | cons b u =>
          simp [bcrypt.ctOrSteps, ih u]
          omega

/-- C9: Constant-time comparison — the instrumented comparison loop
computes the same accumulator as the loop `Check` and `Hash.Compare`
rely on, its iteration count is a function of the input lengths alone
(no early exit depending on which byte differs), and on well-formed
digests the outcome of Check is exactly the outcome of that
constant-time comparison of the recomputed and stored hashes. -/
theorem comparison_constant_time :
    (∀ x y v, (bcrypt.ctOrSteps x y v).1 = bcrypt.ctOr x y v) ∧
    (∀ x y x2 y2 v v2, x.length = x2.length → y.length = y2.length →
      (bcrypt.ctOrSteps x y v).2 = (bcrypt.ctOrSteps x2 y2 v2).2) ∧
    (∀ guess d cost salt stored,
      bcrypt.decodeDigest d = .ok (cost, salt, stored) →
      (Check guess d = none ↔
        bcrypt.ConstantTimeCompare (bcrypt.bcryptCore guess salt cost)
          stored = true)) := by
  refine ⟨?_, ?_, ?_⟩
  · intro x
    induction x with
    | nil => intro y v; cases y <;> rfl
    | cons a t ih =>
        intro y v
        cases y with
        | nil => rfl
        | cons b u => simp [bcrypt.ctOrSteps, bcrypt.ctOr, ih u]
  · intro x y x2 y2 v v2 hx hy
    rw [ctOrSteps_len, ctOrSteps_len, hx, hy]
  · intro guess d cost salt stored hok
    rw [Check_eq]
    unfold bcrypt.CompareHashAndPassword
    rw [hok]
    by_cases hb : bcrypt.ConstantTimeCompare
        (bcrypt.bcryptCore guess salt cost) stored = true
    · simp [hb]
    · rw [Bool.not_eq_true] at hb
      simp [hb]

/-- C9 witness: the step count on concrete byte strings of equal lengths
but different contents agrees, and on the concrete digest of "hello" the
Check outcome coincides with the constant-time comparison. -/
theorem comparison_constant_time_witness :
    (bcrypt.ctOrSteps [1, 2] [3, 4] 0).2 =
      (bcrypt.ctOrSteps [5, 6] [7, 8] 5).2 ∧
    (Check (strBytes "hello") demoDigest = none ↔
      bcrypt.ConstantTimeCompare
        (bcrypt.bcryptCore (strBytes "hello") salt0 10)
        (bcrypt.bcryptCore (strBytes "hello") salt0 10) = true) :=
  ⟨comparison_constant_time.2.1 [1, 2] [3, 4] [5, 6] [7, 8] 0 5
      (by decide) (by decide),
    comparison_constant_time.2.2 (strBytes "hello") demoDigest 10 salt0
      (bcrypt.bcryptCore (strBytes "hello") salt0 10) (by decide)⟩

/-- C4 counterexample: the concrete scenario fails on the Check surface —
Check("goodbye", D) for the digest D of "hello" does return the Mismatch
error, but its rendered message ("check failed: " followed by the
primitive text, which never mentions the word) does not contain the
substring "mismatch". -/
theorem concrete_scenario_check_message_cex :
    Check (strBytes "goodbye") demoDigest =
      some ⟨.mismatchedHashAndPassword,
        "check failed: crypto/bcrypt: hashedPassword is not the hash of the given password"⟩ ∧
    strContains
      "check failed: crypto/bcrypt: hashedPassword is not the hash of the given password"
      "mismatch" = false :=
  ⟨by decide, by decide⟩

/-- C4 amended: with digest D produced from "hello", verifying "hello"
against D succeeds on both surfaces; Hash.Compare("goodbye") fails with
the Mismatch error and its message contains the substring "mismatch";
Check("goodbye", D) also fails with the Mismatch error, but its message
does not contain the substring "mismatch". -/
theorem concrete_scenario_amended :
    ∃ d, Generate (strBytes "hello") salt0 = .ok d ∧
      Check (strBytes "hello") d = none ∧
      Hash.Compare ⟨d⟩ (strBytes "hello") = none ∧
      (∃ e, Hash.Compare ⟨d⟩ (strBytes "goodbye") = some e ∧
        e.wrapped = .mismatchedHashAndPassword ∧
        strContains e.message "mismatch" = true) ∧
      (∃ e, Check (strBytes "goodbye") d = some e ∧
        e.wrapped = .mismatchedHashAndPassword ∧
        strContains e.message "mismatch" = false) := by
  refine ⟨demoDigest, by decide, by decide, by decide,
    ⟨⟨.mismatchedHashAndPassword,
      "hash: compare: hash mismatch: crypto/bcrypt: hashedPassword is not the hash of the given password"⟩,
      by decide, by decide, by decide⟩,
    ⟨⟨.mismatchedHashAndPassword,
      "check failed: crypto/bcrypt: hashedPassword is not the hash of the given password"⟩,
      by decide, by decide, by decide⟩⟩

end HashLib
